import Mathlib

/-!
Verification of the timing/comparison harness of the
claude-bedrock-optimization repository.

The embedding translates `src/utils/performance.py` and
`src/utils/client.py` into Lean:
* one call `llm.invoke(prompt)` is modelled by an oracle
  `Nat → Except String (ℚ × String)` giving, for the i-th run, either a
  raised exception (the `.error` case, which in Python propagates) or the
  measured elapsed time together with the response payload;
* Python `for` loops become structural recursions that thread the
  accumulated lists exactly as the source does;
* Python dictionaries become association lists with an overwrite-on-
  existing-key insertion (`dictInsert`), matching `dict.__setitem__`;
* `sum(times) / len(times)` on an empty list raises `ZeroDivisionError`
  in Python, so the statistics step pattern-matches on emptiness and
  returns that error for the empty list.
-/

set_option linter.unusedVariables false

/-- Python `sum(times)` over a list of floats: a left fold of addition
starting from `0` (exact rationals stand in for floats). -/
def listSum (l : List ℚ) : ℚ := l.foldl (· + ·) 0

/-- Overwrite-insert into an association list, matching the semantics of
Python `d[k] = v`: an existing binding of `k` is replaced in place, a new
key is appended at the end. -/
def dictInsert {α : Type} (k : String) (v : α) :
    List (String × α) → List (String × α)
  | [] => [(k, v)]
  | (k', v') :: rest =>
      if k' = k then (k, v) :: rest else (k', v') :: dictInsert k v rest

/-- The result dictionary built by `time_llm_response`
(src/utils/performance.py lines 52-59): prompt, recorded times, derived
statistics and the last response (`llm_response`). -/
structure TimingResult where
  prompt : String
  times : List ℚ
  average_time : ℚ
  min_time : ℚ
  max_time : ℚ
  response : Option String
deriving DecidableEq, Repr

/-- The `for i in range(num_runs)` loop of `time_llm_response`
(src/utils/performance.py lines 32-45): each iteration calls
`llm.invoke(prompt)` (the oracle at index `i`); a raised exception
propagates immediately (the `.error` branches), otherwise the elapsed
time is appended to `times` and `llm_response` holds the last response. -/
def runsLoop (invoke : Nat → Except String (ℚ × String)) :
    Nat → Except String (List ℚ × Option String)
  | 0 => Except.ok ([], none)
  | n + 1 =>
      match runsLoop invoke n with
      | Except.error e => Except.error e
      | Except.ok (times, _) =>
          match invoke n with
          | Except.error e => Except.error e
          | Except.ok (elapsed, resp) =>
              Except.ok (times ++ [elapsed], some resp)

/-- `time_llm_response` (src/utils/performance.py lines 11-66): run the
loop, then compute `sum(times) / len(times)`, `min(times)`, `max(times)`
and build the result dictionary.  With an empty `times` list the average
raises `ZeroDivisionError` (line 50); any exception raised by
`llm.invoke` propagates out of the function. -/
def time_llm_response (invoke : Nat → Except String (ℚ × String))
    (prompt : String) (num_runs : Nat) : Except String TimingResult :=
  match runsLoop invoke num_runs with
  | Except.error e => Except.error e
  | Except.ok (times, llm_response) =>
      match times with
      | [] => Except.error "ZeroDivisionError: division by zero"
      | t :: ts =>
          Except.ok
            { prompt := prompt
              times := t :: ts
              average_time := listSum (t :: ts) / ((t :: ts).length : ℚ)
              min_time := ts.foldl min t
              max_time := ts.foldl max t
              response := llm_response }

/-- The `usage` block optionally present in a direct-invoke response body
(src/utils/performance.py lines 111-121). -/
structure UsageInfo where
  cacheReadInputTokens : Option Int
  cacheWriteInputTokens : Option Int
deriving DecidableEq, Repr

/-- The result dictionary built by `time_direct_invoke`
(src/utils/performance.py lines 125-131). -/
structure DirectResult where
  times : List ℚ
  average_time : ℚ
  min_time : ℚ
  max_time : ℚ
  usages : List UsageInfo
deriving DecidableEq, Repr

/-- The `for i in range(num_runs)` loop of `time_direct_invoke`
(src/utils/performance.py lines 94-113): each iteration calls
`client.invoke_model`; an exception propagates, otherwise the elapsed
time is appended and, when the response body carries a `usage` entry, it
is appended to `usages`. -/
def directRunsLoop (invoke : Nat → Except String (ℚ × Option UsageInfo)) :
    Nat → Except String (List ℚ × List UsageInfo)
  | 0 => Except.ok ([], [])
  | n + 1 =>
      match directRunsLoop invoke n with
      | Except.error e => Except.error e
      | Except.ok (times, usages) =>
          match invoke n with
          | Except.error e => Except.error e
          | Except.ok (elapsed, usage) =>
              Except.ok (times ++ [elapsed],
                match usage with
                | some u => usages ++ [u]
                | none => usages)

/-- `time_direct_invoke` (src/utils/performance.py lines 69-138): run the
loop, then compute the statistics exactly as `time_llm_response` does;
an empty `times` list raises `ZeroDivisionError` at line 123. -/
def time_direct_invoke (invoke : Nat → Except String (ℚ × Option UsageInfo))
    (num_runs : Nat) : Except String DirectResult :=
  match directRunsLoop invoke num_runs with
  | Except.error e => Except.error e
  | Except.ok (times, usages) =>
      match times with
      | [] => Except.error "ZeroDivisionError: division by zero"
      | t :: ts =>
          Except.ok
            { times := t :: ts
              average_time := listSum (t :: ts) / ((t :: ts).length : ℚ)
              min_time := ts.foldl min t
              max_time := ts.foldl max t
              usages := usages }

/-- An element of the `prompts` list passed to `compare_llms`: either a
plain string or a dictionary with optional `name` and `text` keys
(src/utils/performance.py lines 162-163). -/
inductive PromptInput where
  | plain (s : String)
  | dict (name : Option String) (text : Option String)
deriving DecidableEq, Repr

/-- `prompt_name` (src/utils/performance.py line 162):
`f"Prompt {i+1}"` for a plain string at position `i`, otherwise
`prompt.get("name", f"Prompt {i+1}")`. -/
def promptName (i : Nat) : PromptInput → String
  | PromptInput.plain _ => s!"Prompt {i + 1}"
  | PromptInput.dict name _ => name.getD s!"Prompt {i + 1}"

/-- `prompt_text` (src/utils/performance.py line 163): the string itself
for a plain string, otherwise `prompt.get("text", "")`. -/
def promptText : PromptInput → String
  | PromptInput.plain s => s
  | PromptInput.dict _ text => text.getD ""

/-- The `for i, prompt in enumerate(prompts)` loop of `compare_llms`
(src/utils/performance.py lines 161-174) for one LLM: each prompt is
timed with `time_llm_response` at the default `num_runs = 1` and stored
under its display name in the per-LLM dictionary; the oracle is indexed
by the prompt text passed to `llm.invoke`. -/
def comparePromptsLoop (invoke : String → Nat → Except String (ℚ × String)) :
    Nat → List PromptInput → List (String × TimingResult) →
      Except String (List (String × TimingResult))
  | _, [], results => Except.ok results
  | i, prompt :: rest, results =>
      match time_llm_response (invoke (promptText prompt))
          (promptText prompt) 1 with
      | Except.error e => Except.error e
      | Except.ok result =>
          comparePromptsLoop invoke (i + 1) rest
            (dictInsert (promptName i prompt) result results)

/-- The `for llm_name, llm in llms.items()` loop of `compare_llms`
(src/utils/performance.py lines 155-174): each LLM's per-prompt
dictionary is stored under the LLM's name. -/
def compareLlmsLoop (invoke : String → String → Nat → Except String (ℚ × String))
    (prompts : List PromptInput) :
    List String → List (String × List (String × TimingResult)) →
      Except String (List (String × List (String × TimingResult)))
  | [], results => Except.ok results
  | llm_name :: rest, results =>
      match comparePromptsLoop (invoke llm_name) 0 prompts [] with
      | Except.error e => Except.error e
      | Except.ok inner =>
          compareLlmsLoop invoke prompts rest (dictInsert llm_name inner results)

/-- `compare_llms` (src/utils/performance.py lines 141-176): the LLM
dictionary is modelled by the list of its names together with an oracle
`invoke llm_name prompt_text run_index`. -/
def compare_llms (invoke : String → String → Nat → Except String (ℚ × String))
    (llms : List String) (prompts : List PromptInput) :
    Except String (List (String × List (String × TimingResult))) :=
  compareLlmsLoop invoke prompts llms []

/-- The `ChatBedrockConverse` construction arguments that
`create_claude_llm` assembles (src/utils/client.py lines 109-115):
`thinking` holds the `budget_tokens` of the `thinking` entry of
`additional_model_request_fields` when present, `prompt_caching` its
`enabled` flag. -/
structure ChatBedrockConverse where
  model : String
  temperature : ℚ
  max_tokens : Int
  thinking : Option Int
  prompt_caching : Bool
deriving DecidableEq, Repr

/-- `create_claude_llm` (src/utils/client.py lines 49-117), returning the
constructed LLM together with the warning/note messages printed on the
way.  With a thinking budget: `max_tokens` is clamped to
`thinking_budget + 1024` when `max_tokens <= thinking_budget` (lines
77-80), `temperature` is forced to 1 (line 84), and the redundant second
clamp of lines 88-90 is applied. -/
def create_claude_llm (model_id : String) (thinking_budget : Option Int)
    (temperature : ℚ) (max_tokens : Int) (enable_caching : Bool) :
    ChatBedrockConverse × List String :=
  match thinking_budget with
  | none =>
      ({ model := model_id
         temperature := temperature
         max_tokens := max_tokens
         thinking := none
         prompt_caching := enable_caching }, [])
  | some budget =>
      let mt1 : Int := if max_tokens ≤ budget then budget + 1024 else max_tokens
      let warnings : List String :=
        (if max_tokens ≤ budget then
          [s!"Warning: Adjusted max_tokens to {budget + 1024} to exceed thinking budget"]
        else []) ++
        ["Note: Setting temperature to 1 as required with thinking mode"]
      let mt2 : Int := if mt1 ≤ budget then budget + 1024 else mt1
      ({ model := model_id
         temperature := 1
         max_tokens := mt2
         thinking := some budget
         prompt_caching := enable_caching }, warnings)

/-- The display names that `compare_llms` uses as keys for the prompts,
starting the enumeration at index `i`. -/
def namesFrom : Nat → List PromptInput → List String
  | _, [] => []
  | i, p :: rest => promptName i p :: namesFrom (i + 1) rest

/-! ### Helper lemmas about the run loops -/

theorem runsLoop_ok_of_all_ok (invoke : Nat → Except String (ℚ × String)) :
    ∀ n : Nat, (∀ i, i < n → ∃ p, invoke i = Except.ok p) →
      ∃ ts resp, runsLoop invoke n = Except.ok (ts, resp) ∧ ts.length = n := by
  intro n
  induction n with
  | zero => intro h; exact ⟨[], none, rfl, rfl⟩
  | succ n ih =>
      intro h
      obtain ⟨ts, resp, heq, hlen⟩ := ih (fun i hi => h i (Nat.lt_succ_of_lt hi))
      obtain ⟨⟨e, r⟩, hi⟩ := h n (Nat.lt_succ_self n)
      refine ⟨ts ++ [e], some r, ?_, by simp [hlen]⟩
      simp [runsLoop, heq, hi]

theorem directRunsLoop_ok_of_all_ok
    (invoke : Nat → Except String (ℚ × Option UsageInfo)) :
    ∀ n : Nat, (∀ i, i < n → ∃ p, invoke i = Except.ok p) →
      ∃ ts us, directRunsLoop invoke n = Except.ok (ts, us) ∧ ts.length = n := by
  intro n
  induction n with
  | zero => intro h; exact ⟨[], [], rfl, rfl⟩
  | succ n ih =>
      intro h
      obtain ⟨ts, us, heq, hlen⟩ := ih (fun i hi => h i (Nat.lt_succ_of_lt hi))
      obtain ⟨⟨e, u⟩, hi⟩ := h n (Nat.lt_succ_self n)
      cases u with
      | some v =>
          refine ⟨ts ++ [e], us ++ [v], ?_, by simp [hlen]⟩
          simp [directRunsLoop, heq, hi]
      | none =>
          refine ⟨ts ++ [e], us, ?_, by simp [hlen]⟩
          simp [directRunsLoop, heq, hi]

theorem time_llm_response_of_runsLoop_ok
    (invoke : Nat → Except String (ℚ × String)) (prompt : String) (n : Nat)
    (t : ℚ) (ts : List ℚ) (resp : Option String)
    (h : runsLoop invoke n = Except.ok (t :: ts, resp)) :
    time_llm_response invoke prompt n = Except.ok
      { prompt := prompt
        times := t :: ts
        average_time := listSum (t :: ts) / (((t :: ts).length : ℚ))
        min_time := ts.foldl min t
        max_time := ts.foldl max t
        response := resp } := by
  simp [time_llm_response, h]

theorem time_llm_response_ok_length
    (invoke : Nat → Except String (ℚ × String)) (prompt : String) (n : Nat)
    (hn : 1 ≤ n) (h : ∀ i, i < n → ∃ p, invoke i = Except.ok p) :
    ∃ r, time_llm_response invoke prompt n = Except.ok r ∧
      r.times.length = n := by
  obtain ⟨ts, resp, heq, hlen⟩ := runsLoop_ok_of_all_ok invoke n h
  cases ts with
  | nil => exact absurd hlen (by simp; omega)
  | cons t ts' =>
      refine ⟨_, time_llm_response_of_runsLoop_ok invoke prompt n t ts' resp heq,
        ?_⟩
      simpa using hlen

theorem time_direct_invoke_ok_length
    (invoke : Nat → Except String (ℚ × Option UsageInfo)) (n : Nat)
    (hn : 1 ≤ n) (h : ∀ i, i < n → ∃ p, invoke i = Except.ok p) :
    ∃ r, time_direct_invoke invoke n = Except.ok r ∧ r.times.length = n := by
  obtain ⟨ts, us, heq, hlen⟩ := directRunsLoop_ok_of_all_ok invoke n h
  cases ts with
  | nil => exact absurd hlen (by simp; omega)
  | cons t ts' =>
      refine ⟨{ times := t :: ts'
                average_time := listSum (t :: ts') / (((t :: ts').length : ℚ))
                min_time := ts'.foldl min t
                max_time := ts'.foldl max t
                usages := us }, ?_, by simpa using hlen⟩
      simp [time_direct_invoke, heq]

/-! ### Helper lemmas about the statistics -/

theorem foldl_min_le_init : ∀ (xs : List ℚ) (a : ℚ), xs.foldl min a ≤ a := by
  intro xs
  induction xs with
  | nil => intro a; simp
  | cons x xs ih => intro a; exact le_trans (ih (min a x)) (min_le_left a x)

theorem foldl_min_le_mem :
    ∀ (xs : List ℚ) (a y : ℚ), y ∈ xs → xs.foldl min a ≤ y := by
  intro xs
  induction xs with
  | nil => intro a y hy; cases hy
  | cons x xs ih =>
      intro a y hy
      rcases List.mem_cons.mp hy with rfl | h
      · exact le_trans (foldl_min_le_init xs (min a y)) (min_le_right a y)
      · exact ih (min a x) y h

theorem le_foldl_max_init : ∀ (xs : List ℚ) (a : ℚ), a ≤ xs.foldl max a := by
  intro xs
  induction xs with
  | nil => intro a; simp
  | cons x xs ih => intro a; exact le_trans (le_max_left a x) (ih (max a x))

theorem le_foldl_max_mem :
    ∀ (xs : List ℚ) (a y : ℚ), y ∈ xs → y ≤ xs.foldl max a := by
  intro xs
  induction xs with
  | nil => intro a y hy; cases hy
  | cons x xs ih =>
      intro a y hy
      rcases List.mem_cons.mp hy with rfl | h
      · exact le_trans (le_max_right a y) (le_foldl_max_init xs (max a y))
      · exact ih (max a x) y h

theorem foldl_add_le_of_forall_le (M : ℚ) :
    ∀ l : List ℚ, (∀ x ∈ l, x ≤ M) →
      ∀ a : ℚ, l.foldl (· + ·) a ≤ a + l.length * M := by
  intro l
  induction l with
  | nil => intro h a; simp
  | cons x xs ih =>
      intro h a
      have hx : x ≤ M := h x (List.mem_cons_self x xs)
      have hxs := ih (fun y hy => h y (List.mem_cons_of_mem x hy)) (a + x)
      have hcast : (((x :: xs).length : ℚ)) = ((xs.length : ℚ)) + 1 := by
        push_cast [List.length_cons]; ring
      have hexp : ((xs.length : ℚ) + 1) * M = (xs.length : ℚ) * M + M := by ring
      calc (x :: xs).foldl (· + ·) a = xs.foldl (· + ·) (a + x) := rfl
        _ ≤ a + x + xs.length * M := hxs
        _ ≤ a + ((x :: xs).length : ℚ) * M := by rw [hcast, hexp]; linarith

theorem le_foldl_add_of_forall_le (m : ℚ) :
    ∀ l : List ℚ, (∀ x ∈ l, m ≤ x) →
      ∀ a : ℚ, a + l.length * m ≤ l.foldl (· + ·) a := by
  intro l
  induction l with
  | nil => intro h a; simp
  | cons x xs ih =>
      intro h a
      have hx : m ≤ x := h x (List.mem_cons_self x xs)
      have hxs := ih (fun y hy => h y (List.mem_cons_of_mem x hy)) (a + x)
      have hcast : (((x :: xs).length : ℚ)) = ((xs.length : ℚ)) + 1 := by
        push_cast [List.length_cons]; ring
      have hexp : ((xs.length : ℚ) + 1) * m = (xs.length : ℚ) * m + m := by ring
      calc a + ((x :: xs).length : ℚ) * m = a + ((xs.length : ℚ) * m + m) := by
            rw [hcast, hexp]
        _ ≤ a + x + (xs.length : ℚ) * m := by linarith
        _ ≤ (x :: xs).foldl (· + ·) a := hxs

theorem min_le_mean_and_mean_le_max (t : ℚ) (ts : List ℚ) :
    ts.foldl min t ≤ listSum (t :: ts) / (((t :: ts).length : ℚ)) ∧
      listSum (t :: ts) / (((t :: ts).length : ℚ)) ≤ ts.foldl max t := by
  have hmn : ∀ x ∈ t :: ts, ts.foldl min t ≤ x := by
    intro x hx
    rcases List.mem_cons.mp hx with rfl | hx
    · exact foldl_min_le_init ts x
    · exact foldl_min_le_mem ts t x hx
  have hmx : ∀ x ∈ t :: ts, x ≤ ts.foldl max t := by
    intro x hx
    rcases List.mem_cons.mp hx with rfl | hx
    · exact le_foldl_max_init ts x
    · exact le_foldl_max_mem ts t x hx
  have hlow : (0 : ℚ) + ((t :: ts).length : ℚ) * (ts.foldl min t) ≤
      listSum (t :: ts) :=
    le_foldl_add_of_forall_le (ts.foldl min t) (t :: ts) hmn 0
  have hup : listSum (t :: ts) ≤
      (0 : ℚ) + ((t :: ts).length : ℚ) * (ts.foldl max t) :=
    foldl_add_le_of_forall_le (ts.foldl max t) (t :: ts) hmx 0
  have hpos : (0 : ℚ) < ((t :: ts).length : ℚ) := by
    exact_mod_cast Nat.succ_pos ts.length
  constructor
  · rw [le_div_iff₀ hpos, mul_comm]
    linarith
  · rw [div_le_iff₀ hpos, mul_comm]
    linarith

/-! ### Helper lemmas about dictionary insertion -/

theorem mem_dictInsert {α : Type} (k : String) (v : α) :
    ∀ (d : List (String × α)) (x : String × α),
      x ∈ dictInsert k v d → x = (k, v) ∨ x ∈ d := by
  intro d
  induction d with
  | nil =>
      intro x hx
      simp [dictInsert] at hx
      exact Or.inl hx
  | cons kv rest ih =>
      obtain ⟨k', v'⟩ := kv
      intro x hx
      by_cases hk : k' = k
      · simp [dictInsert, hk] at hx
        rcases hx with h | h
        · exact Or.inl h
        · exact Or.inr (List.mem_cons_of_mem _ h)
      · simp only [dictInsert, if_neg hk, List.mem_cons] at hx
        rcases hx with h | h
        · exact Or.inr (by simp [h])
        · rcases ih x h with h' | h'
          · exact Or.inl h'
          · exact Or.inr (List.mem_cons_of_mem _ h')

theorem dictInsert_length_of_not_mem {α : Type} (k : String) (v : α) :
    ∀ d : List (String × α), k ∉ d.map Prod.fst →
      (dictInsert k v d).length = d.length + 1 := by
  intro d
  induction d with
  | nil => intro h; rfl
  | cons kv rest ih =>
      obtain ⟨k', v'⟩ := kv
      intro h
      rw [List.map_cons, List.mem_cons] at h
      push_neg at h
      have hk : ¬ k' = k := fun e => h.1 e.symm
      simp [dictInsert, hk, ih h.2]

theorem map_fst_dictInsert_of_not_mem {α : Type} (k : String) (v : α) :
    ∀ d : List (String × α), k ∉ d.map Prod.fst →
      (dictInsert k v d).map Prod.fst = d.map Prod.fst ++ [k] := by
  intro d
  induction d with
  | nil => intro h; rfl
  | cons kv rest ih =>
      obtain ⟨k', v'⟩ := kv
      intro h
      rw [List.map_cons, List.mem_cons] at h
      push_neg at h
      have hk : ¬ k' = k := fun e => h.1 e.symm
      simp [dictInsert, hk, ih h.2]

/-! ### Helper lemmas about the comparison loops -/

theorem comparePromptsLoop_ok (invoke : String → Nat → Except String (ℚ × String))
    (hok : ∀ text i, ∃ p, invoke text i = Except.ok p) :
    ∀ (ps : List PromptInput) (i : Nat) (acc : List (String × TimingResult)),
      (namesFrom i ps).Nodup →
      (∀ nm ∈ namesFrom i ps, nm ∉ acc.map Prod.fst) →
      ∃ d, comparePromptsLoop invoke i ps acc = Except.ok d ∧
        d.length = acc.length + ps.length := by
  intro ps
  induction ps with
  | nil =>
      intro i acc hnodup hdisj
      exact ⟨acc, rfl, by simp⟩
  | cons p rest ih =>
      intro i acc hnodup hdisj
      obtain ⟨r, hr, hrlen⟩ := time_llm_response_ok_length
        (invoke (promptText p)) (promptText p) 1 (le_refl 1)
        (fun j hj => hok (promptText p) j)
      have hnotmem : promptName i p ∉ acc.map Prod.fst :=
        hdisj _ (by simp [namesFrom])
      have hcons : namesFrom i (p :: rest) =
          promptName i p :: namesFrom (i + 1) rest := rfl
      rw [hcons, List.nodup_cons] at hnodup
      have hdisj' : ∀ nm ∈ namesFrom (i + 1) rest,
          nm ∉ (dictInsert (promptName i p) r acc).map Prod.fst := by
        intro nm hnm
        rw [map_fst_dictInsert_of_not_mem _ _ _ hnotmem, List.mem_append,
          List.mem_singleton]
        push_neg
        refine ⟨hdisj nm (by rw [hcons]; exact List.mem_cons_of_mem _ hnm), ?_⟩
        intro e
        exact hnodup.1 (e ▸ hnm)
      obtain ⟨d, hd, hdlen⟩ :=
        ih (i + 1) (dictInsert (promptName i p) r acc) hnodup.2 hdisj'
      refine ⟨d, ?_, ?_⟩
      · simp [comparePromptsLoop, hr, hd]
      · rw [hdlen, dictInsert_length_of_not_mem _ _ _ hnotmem]
        simp [Nat.add_assoc, Nat.add_comm 1 rest.length]

theorem compareLlmsLoop_ok
    (invoke : String → String → Nat → Except String (ℚ × String))
    (prompts : List PromptInput)
    (hinner : ∀ nm, ∃ d, comparePromptsLoop (invoke nm) 0 prompts [] =
      Except.ok d ∧ d.length = prompts.length) :
    ∀ (llms : List String) (acc : List (String × List (String × TimingResult))),
      (∀ e ∈ acc, e.2.length = prompts.length) →
      ∃ table, compareLlmsLoop invoke prompts llms acc = Except.ok table ∧
        ∀ e ∈ table, e.2.length = prompts.length := by
  intro llms
  induction llms with
  | nil => intro acc hacc; exact ⟨acc, rfl, hacc⟩
  | cons nm rest ih =>
      intro acc hacc
      obtain ⟨d, hd, hdlen⟩ := hinner nm
      have hacc' : ∀ e ∈ dictInsert nm d acc, e.2.length = prompts.length := by
        intro e he
        rcases mem_dictInsert nm d acc e he with rfl | he
        · exact hdlen
        · exact hacc e he
      obtain ⟨table, ht, hlen⟩ := ih (dictInsert nm d acc) hacc'
      exact ⟨table, by simp [compareLlmsLoop, hd, ht], hlen⟩

/-! ### Claim C1 -/

/-- Claim C1, counterexample: a network timeout raised by the underlying
call is not caught anywhere — `time_llm_response` has no handler around
`llm.invoke` — so `compare_llms` over one configuration and one input
aborts with the propagated exception instead of completing and returning
its table. -/
theorem C1_counterexample :
    compare_llms (fun _ _ _ => Except.error "ReadTimeoutError: Read timed out")
      ["standard"] [PromptInput.plain "Hello"] =
      Except.error "ReadTimeoutError: Read timed out" := by
  simp [compare_llms, compareLlmsLoop, comparePromptsLoop, time_llm_response,
    runsLoop, promptText]

/-- Claim C1, amended: a failure raised by the underlying call is not
caught at the adapter layer; it propagates out of `time_llm_response`, so
a failure of the very first invocation aborts the whole comparison run
with that error instead of being converted into a failed Invocation
Result. -/
theorem C1_failure_propagates
    (invoke : String → String → Nat → Except String (ℚ × String))
    (llm_name : String) (llms_rest : List String) (p : PromptInput)
    (prompts_rest : List PromptInput) (e : String)
    (h : invoke llm_name (promptText p) 0 = Except.error e) :
    compare_llms invoke (llm_name :: llms_rest) (p :: prompts_rest) =
      Except.error e := by
  have h1 : runsLoop (invoke llm_name (promptText p)) 1 = Except.error e := by
    simp [runsLoop, h]
  have h2 : time_llm_response (invoke llm_name (promptText p))
      (promptText p) 1 = Except.error e := by
    simp [time_llm_response, h1]
  simp [compare_llms, compareLlmsLoop, comparePromptsLoop, h2]

/-- Claim C1, witness: the amended statement at a concrete failing
invocation. -/
theorem C1_witness :
    compare_llms (fun _ _ _ => Except.error "ConnectTimeoutError: timed out")
      ["cached"] [PromptInput.plain "Hi"] =
      Except.error "ConnectTimeoutError: timed out" :=
  C1_failure_propagates _ "cached" [] (PromptInput.plain "Hi") [] _ rfl

/-! ### Claim C2 -/

/-- Claim C2, counterexample: for a pair in which zero attempts succeed
(`num_runs = 1` and the single call raises), no Aggregate Result is
produced and no pair is flagged as fully failed — both timing functions
abort with the propagated exception. -/
theorem C2_counterexample :
    time_llm_response (fun _ => Except.error "ThrottlingException: Rate exceeded")
        "p" 1 = Except.error "ThrottlingException: Rate exceeded" ∧
    time_direct_invoke (fun _ => Except.error "ThrottlingException: Rate exceeded")
        1 = Except.error "ThrottlingException: Rate exceeded" := by
  constructor
  · simp [time_llm_response, runsLoop]
  · simp [time_direct_invoke, directRunsLoop]

/-- Claim C2, amended: there is no success flag and no per-attempt
failure recording.  When every attempt succeeds the statistics are
computed over all recorded times; a failing attempt aborts the pair's
computation with the propagated error (no flagged aggregate exists); and
with zero attempts (`num_runs = 0`) the mean evaluates `sum([])/len([])`
and aborts with a `ZeroDivisionError`. -/
theorem C2_stats_over_all_recorded :
    (∀ (invoke : Nat → Except String (ℚ × String)) (prompt : String)
        (n : Nat) (t : ℚ) (ts : List ℚ) (resp : Option String),
      runsLoop invoke n = Except.ok (t :: ts, resp) →
      time_llm_response invoke prompt n = Except.ok
        { prompt := prompt
          times := t :: ts
          average_time := listSum (t :: ts) / (((t :: ts).length : ℚ))
          min_time := ts.foldl min t
          max_time := ts.foldl max t
          response := resp }) ∧
    (∀ (invoke : Nat → Except String (ℚ × String)) (prompt : String)
        (n : Nat) (e : String),
      runsLoop invoke n = Except.error e →
      time_llm_response invoke prompt n = Except.error e) ∧
    (∀ (invoke : Nat → Except String (ℚ × String)) (prompt : String),
      time_llm_response invoke prompt 0 =
        Except.error "ZeroDivisionError: division by zero") := by
  refine ⟨?_, ?_, fun invoke prompt => rfl⟩
  · intro invoke prompt n t ts resp h
    exact time_llm_response_of_runsLoop_ok invoke prompt n t ts resp h
  · intro invoke prompt n e h
    simp [time_llm_response, h]

/-- Claim C2, witness: the amended statement at a concrete one-run
success. -/
theorem C2_witness :
    time_llm_response (fun _ => Except.ok (2, "r")) "p" 1 = Except.ok
      { prompt := "p", times := [2], average_time := 2, min_time := 2,
        max_time := 2, response := some "r" } := by
  have h := C2_stats_over_all_recorded.1 (fun _ => Except.ok (2, "r")) "p" 1
    2 [] (some "r") (by simp [runsLoop])
  simpa [listSum] using h

/-! ### Claim C3 -/

/-- Claim C3: for every repeat count `R ≥ 1` and every pair in which no
invocation fails, the result contains exactly `R` Invocation Results:
the recorded `times` list has length `R`. -/
theorem C3_repeat_count (invoke : Nat → Except String (ℚ × String))
    (prompt : String) (R : Nat) (hR : 1 ≤ R)
    (hok : ∀ i, i < R → ∃ p, invoke i = Except.ok p) :
    ∃ r, time_llm_response invoke prompt R = Except.ok r ∧
      r.times.length = R :=
  time_llm_response_ok_length invoke prompt R hR hok

/-- Claim C3, witness: two successful runs record exactly two times. -/
theorem C3_witness :
    ∃ r, time_llm_response (fun _ => Except.ok (1, "r")) "p" 2 = Except.ok r ∧
      r.times.length = 2 :=
  C3_repeat_count (fun _ => Except.ok (1, "r")) "p" 2 (by decide)
    (fun i _ => ⟨(1, "r"), rfl⟩)

/-! ### Claim C4 -/

/-- The scenario of claim C4: the first call times out, every later call
succeeds with duration 1.5 seconds. -/
def timeoutThenOk : Nat → Except String (ℚ × String)
  | 0 => Except.error "ReadTimeoutError: Read timed out"
  | _ => Except.ok (3 / 2, "ok")

/-- Claim C4, counterexample: with repeat count 2 and a first call that
times out, `time_llm_response` does not produce an Aggregate Result with
2 Invocation Results and statistics over the single success — the
timeout propagates immediately and the second call never happens. -/
theorem C4_counterexample :
    time_llm_response timeoutThenOk "p" 2 =
      Except.error "ReadTimeoutError: Read timed out" := by
  simp [time_llm_response, runsLoop, timeoutThenOk]

/-- Claim C4, amended: a failing call aborts `time_llm_response` with the
propagated error, so the timeout-then-success run with repeat 2 yields no
Aggregate Result at all; only when both calls succeed (each with duration
1.5 s) does the result exist, holding 2 Invocation Results with
statistics over all recorded durations: mean = min = max = 1.5. -/
theorem C4_first_failure_aborts :
    time_llm_response timeoutThenOk "p" 2 =
      Except.error "ReadTimeoutError: Read timed out" ∧
    time_llm_response (fun _ => Except.ok (3 / 2, "ok")) "p" 2 = Except.ok
      { prompt := "p", times := [3 / 2, 3 / 2], average_time := 3 / 2,
        min_time := 3 / 2, max_time := 3 / 2, response := some "ok" } := by
  constructor
  · simp [time_llm_response, runsLoop, timeoutThenOk]
  · simp [time_llm_response, runsLoop, listSum]

/-! ### Claim C5 -/

/-- Claim C5: whenever `time_llm_response` produces a result (a non-empty
set of successful invocation times), the computed mean lies within the
closed interval from the minimum to the maximum of the times, in exact
rational arithmetic. -/
theorem C5_mean_in_range (invoke : Nat → Except String (ℚ × String))
    (prompt : String) (num_runs : Nat) (r : TimingResult)
    (h : time_llm_response invoke prompt num_runs = Except.ok r) :
    r.min_time ≤ r.average_time ∧ r.average_time ≤ r.max_time := by
  unfold time_llm_response at h
  cases hr : runsLoop invoke num_runs with
  | error e =>
      rw [hr] at h
      exact absurd h (by simp)
  | ok pair =>
      obtain ⟨times, resp⟩ := pair
      rw [hr] at h
      cases times with
      | nil => exact absurd h (by simp)
      | cons t ts =>
          simp only [Except.ok.injEq] at h
          subst h
          exact min_le_mean_and_mean_le_max t ts

/-- Claim C5, witness: the bound evaluated at a concrete two-run
result. -/
theorem C5_witness :
    ({ prompt := "p", times := [1, 3], average_time := 2, min_time := 1,
       max_time := 3, response := some "r2" } : TimingResult).min_time ≤
      ({ prompt := "p", times := [1, 3], average_time := 2, min_time := 1,
         max_time := 3, response := some "r2" } : TimingResult).average_time ∧
    ({ prompt := "p", times := [1, 3], average_time := 2, min_time := 1,
       max_time := 3, response := some "r2" } : TimingResult).average_time ≤
      ({ prompt := "p", times := [1, 3], average_time := 2, min_time := 1,
         max_time := 3, response := some "r2" } : TimingResult).max_time :=
  C5_mean_in_range
    (fun i => if i = 0 then Except.ok (1, "r1") else Except.ok (3, "r2"))
    "p" 2 _ (by simp [time_llm_response, runsLoop, listSum]; norm_num)

/-! ### Claim C6 -/

/-- The always-succeeding oracle of claim C6's second scenario: durations
1.0, 2.0, 3.0 seconds on runs 0, 1, 2. -/
def run123 : Nat → Except String (ℚ × String)
  | 0 => Except.ok (1, "r1")
  | 1 => Except.ok (2, "r2")
  | _ => Except.ok (3, "r3")

/-- Claim C6: a comparison over 2 configurations and 2 inputs with the
hard-wired repeat count 1, every invocation succeeding, yields a table
with exactly 4 (configuration, input) entries, each holding exactly 1
recorded time; and a 3-repeat run with durations 1.0, 2.0, 3.0 yields 3
entries with mean 2.0, min 1.0 and max 3.0. -/
theorem C6_example_scenarios :
    compare_llms (fun _ _ _ => Except.ok (1, "resp")) ["A", "B"]
        [PromptInput.plain "p1", PromptInput.plain "p2"] =
      Except.ok
        [("A", [("Prompt 1", { prompt := "p1", times := [1], average_time := 1,
                               min_time := 1, max_time := 1,
                               response := some "resp" }),
                ("Prompt 2", { prompt := "p2", times := [1], average_time := 1,
                               min_time := 1, max_time := 1,
                               response := some "resp" })]),
         ("B", [("Prompt 1", { prompt := "p1", times := [1], average_time := 1,
                               min_time := 1, max_time := 1,
                               response := some "resp" }),
                ("Prompt 2", { prompt := "p2", times := [1], average_time := 1,
                               min_time := 1, max_time := 1,
                               response := some "resp" })])] ∧
    time_llm_response run123 "q" 3 = Except.ok
      { prompt := "q", times := [1, 2, 3], average_time := 2, min_time := 1,
        max_time := 3, response := some "r3" } := by
  constructor
  · norm_num [compare_llms, compareLlmsLoop, comparePromptsLoop,
      time_llm_response, runsLoop, listSum, promptName, promptText, dictInsert]
    decide
  · simp [time_llm_response, runsLoop, run123, listSum]
    norm_num

/-! ### Claim C7 -/

/-- Claim C7: when a thinking budget is supplied and the requested
`max_tokens` does not exceed it, `create_claude_llm` corrects the
configuration instead of raising: `max_tokens` is clamped upward to
`thinking_budget + 1024` (strictly greater than the budget), the warning
is surfaced, and the LLM is still constructed (with the thinking field
set). -/
theorem C7_clamp_upward (model_id : String) (b : Int) (temp : ℚ)
    (mt : Int) (cache : Bool) (h : mt ≤ b) :
    (create_claude_llm model_id (some b) temp mt cache).1.max_tokens =
      b + 1024 ∧
    b < (create_claude_llm model_id (some b) temp mt cache).1.max_tokens ∧
    s!"Warning: Adjusted max_tokens to {b + 1024} to exceed thinking budget" ∈
      (create_claude_llm model_id (some b) temp mt cache).2 ∧
    (create_claude_llm model_id (some b) temp mt cache).1.thinking =
      some b := by
  have h2 : ¬ (b + 1024 ≤ b) := by omega
  refine ⟨?_, ?_, ?_, ?_⟩
  · simp [create_claude_llm, h, h2]
  · simp [create_claude_llm, h, h2]
  · simp [create_claude_llm, h]
  · simp [create_claude_llm]

/-- Claim C7, witness: the clamp at budget 2000 and requested
`max_tokens` 50. -/
theorem C7_witness :
    (create_claude_llm "m" (some 2000) 0 50 false).1.max_tokens =
      2000 + 1024 ∧
    (2000 : Int) < (create_claude_llm "m" (some 2000) 0 50 false).1.max_tokens ∧
    s!"Warning: Adjusted max_tokens to {(2000 : Int) + 1024} to exceed thinking budget" ∈
      (create_claude_llm "m" (some 2000) 0 50 false).2 ∧
    (create_claude_llm "m" (some 2000) 0 50 false).1.thinking =
      some 2000 :=
  C7_clamp_upward "m" 2000 0 50 false (by decide)

/-! ### Claim C8 -/

/-- Claim C8: whenever a thinking budget is supplied, the constructed
LLM's temperature equals 1 regardless of the caller's temperature
argument; the caller-supplied temperature is honored exactly when no
thinking budget is set. -/
theorem C8_temperature_forced :
    (∀ (model_id : String) (b : Int) (temp : ℚ) (mt : Int) (cache : Bool),
      (create_claude_llm model_id (some b) temp mt cache).1.temperature = 1) ∧
    (∀ (model_id : String) (temp : ℚ) (mt : Int) (cache : Bool),
      (create_claude_llm model_id none temp mt cache).1.temperature = temp) := by
  constructor
  · intro model_id b temp mt cache
    simp [create_claude_llm]
  · intro model_id temp mt cache
    rfl

/-! ### Claim C9 -/

/-- Claim C9: with `num_runs = 0` both timing functions evaluate
`sum(times)/len(times)` on an empty list and abort with a division-by-
zero error; with `num_runs ≥ 1` and no failing invocation that branch is
unreachable and both functions return a result. -/
theorem C9_zero_runs_divide_by_zero :
    (∀ (invoke : Nat → Except String (ℚ × String)) (prompt : String),
      time_llm_response invoke prompt 0 =
        Except.error "ZeroDivisionError: division by zero") ∧
    (∀ invoke : Nat → Except String (ℚ × Option UsageInfo),
      time_direct_invoke invoke 0 =
        Except.error "ZeroDivisionError: division by zero") ∧
    (∀ (invoke : Nat → Except String (ℚ × String)) (prompt : String) (n : Nat),
      1 ≤ n → (∀ i, i < n → ∃ p, invoke i = Except.ok p) →
      ∃ r, time_llm_response invoke prompt n = Except.ok r) ∧
    (∀ (invoke : Nat → Except String (ℚ × Option UsageInfo)) (n : Nat),
      1 ≤ n → (∀ i, i < n → ∃ p, invoke i = Except.ok p) →
      ∃ r, time_direct_invoke invoke n = Except.ok r) := by
  refine ⟨fun invoke prompt => rfl, fun invoke => rfl, ?_, ?_⟩
  · intro invoke prompt n hn hok
    obtain ⟨r, hr, _⟩ := time_llm_response_ok_length invoke prompt n hn hok
    exact ⟨r, hr⟩
  · intro invoke n hn hok
    obtain ⟨r, hr, _⟩ := time_direct_invoke_ok_length invoke n hn hok
    exact ⟨r, hr⟩

/-- Claim C9, witness: one successful run returns a result. -/
theorem C9_witness :
    ∃ r, time_llm_response (fun _ => Except.ok (1, "r")) "p" 1 =
      Except.ok r :=
  C9_zero_runs_divide_by_zero.2.2.1 (fun _ => Except.ok (1, "r")) "p" 1
    (by decide) (fun i _ => ⟨(1, "r"), rfl⟩)

/-! ### Claim C10 -/

/-- The oracle of claim C10's duplicate-name scenario: the prompt with
text "a" answers in 1 second with payload "first", every other prompt in
2 seconds with payload "second". -/
def dupInvoke : String → String → Nat → Except String (ℚ × String) :=
  fun _ text _ =>
    if text = "a" then Except.ok (1, "first") else Except.ok (2, "second")

/-- Claim C10: `compare_llms` keys its per-configuration results by the
prompt display name, so (first conjunct) under the precondition that all
display names are distinct and every invocation succeeds, the table has
exactly one entry per (configuration, input) pair — each inner dictionary
has exactly `prompts.length` entries — while (second conjunct) two
structured prompts carrying the same name "X" leave a single entry whose
Aggregate Result is the later prompt's, the earlier one overwritten. -/
theorem C10_display_name_keying :
    (∀ (invoke : String → String → Nat → Except String (ℚ × String))
        (llms : List String) (prompts : List PromptInput),
      (∀ nm text i, ∃ p, invoke nm text i = Except.ok p) →
      (namesFrom 0 prompts).Nodup →
      ∃ table, compare_llms invoke llms prompts = Except.ok table ∧
        ∀ e ∈ table, e.2.length = prompts.length) ∧
    compare_llms dupInvoke ["A"]
        [PromptInput.dict (some "X") (some "a"),
         PromptInput.dict (some "X") (some "b")] =
      Except.ok [("A",
        [("X",
            { prompt := "b"
              times := [2]
              average_time := 2
              min_time := 2
              max_time := 2
              response := some "second" })])] := by
  constructor
  · intro invoke llms prompts hok hnodup
    have hinner : ∀ nm, ∃ d,
        comparePromptsLoop (invoke nm) 0 prompts [] = Except.ok d ∧
          d.length = prompts.length := by
      intro nm
      obtain ⟨d, hd, hlen⟩ := comparePromptsLoop_ok (invoke nm) (hok nm)
        prompts 0 [] hnodup (by simp)
      exact ⟨d, hd, by simpa using hlen⟩
    exact compareLlmsLoop_ok invoke prompts hinner llms [] (by simp)
  · have hba : ¬ ("b" : String) = "a" := by decide
    norm_num [compare_llms, compareLlmsLoop, comparePromptsLoop,
      time_llm_response, runsLoop, listSum, promptName, promptText,
      dictInsert, dupInvoke, hba]

/-- Claim C10, witness: the distinct-names statement at one configuration
and one plainly named prompt. -/
theorem C10_witness :
    ∃ table, compare_llms (fun _ _ _ => Except.ok (1, "r")) ["A"]
        [PromptInput.plain "p1"] = Except.ok table ∧
      ∀ e ∈ table, e.2.length = 1 := by
  have h := C10_display_name_keying.1 (fun _ _ _ => Except.ok (1, "r")) ["A"]
    [PromptInput.plain "p1"] (fun _ _ _ => ⟨(1, "r"), rfl⟩)
    (by simp [namesFrom])
  simpa using h
